import Mathlib

/-!
Verification of the normalization / comparison core of the Siemens
Produktcheck repository (src/utils.js and the comparator / verdict logic of
src/server.js).

Modelling conventions of the shallow embedding:
  * JS strings are Lean `String` / `List Char`; a nullable cell value is an
    `Option String` (JS `null`/`undefined` become `none`).
  * JS numbers are modelled as exact rationals `ℚ` (`parseFloat` of a matched
    decimal token is the exact decimal value; `Math.round` is `⌊q + 1/2⌋`).
  * The regular expressions of the source (`-?\d+(?:\.\d+)?`, `/mg\b/`,
    `/\bg\b/`, `/\bkg\b/`, `/\bt\b/`, `/cm\b/`, `/(^|\D)m\b/`, `/[\s\-\/_]+/g`,
    `/\s+/g`, `/[,;]/g`, `/[×xX*\/]/g`) are embedded as explicit scanners over
    `List Char` with JS word-character (`[A-Za-z0-9_]`) boundaries.
  * `toLowerCase`/`toUpperCase` are modelled on the ASCII range plus the
    German letters Ä/Ö/Ü/ä/ö/ü/ß that occur in this repository's data
    (JS upper-cases "ß" to "SS").
-/

set_option maxRecDepth 4000

/-- JS whitespace (`\s`, `trim`): ASCII whitespace plus NBSP. -/
def isJsSpace (c : Char) : Bool :=
  c == ' ' || c == '\t' || c == '\n' || c == '\r' || c == '\x0b' || c == '\x0c' || c == '\u00A0'

/-- JS regex word character `\w` = `[A-Za-z0-9_]`. -/
def isWordChar (c : Char) : Bool :=
  c.isAlpha || c.isDigit || c == '_'

/-- JS `toLowerCase` on the character range used by this repository. -/
def jsLowerChar (c : Char) : Char :=
  if c = 'Ä' then 'ä'
  else if c = 'Ö' then 'ö'
  else if c = 'Ü' then 'ü'
  else c.toLower

/-- JS `toUpperCase` on the character range used by this repository
(`"ß".toUpperCase() = "SS"`, hence the list-valued result). -/
def jsUpperChar (c : Char) : List Char :=
  if c = 'ß' then ['S', 'S']
  else if c = 'ä' then ['Ä']
  else if c = 'ö' then ['Ö']
  else if c = 'ü' then ['Ü']
  else [c.toUpper]

/-- JS `String.prototype.trim`. -/
def jsTrim (l : List Char) : List Char :=
  ((l.dropWhile isJsSpace).reverse.dropWhile isJsSpace).reverse

/-- JS `replace` with the plain-string pattern `','` and replacement `'.'`
replaces only the first occurrence. -/
def replaceFirstComma : List Char → List Char
  | [] => []
  | c :: cs => if c = ',' then '.' :: cs else c :: replaceFirstComma cs

/-- JS `s.replace(/\s+/g, ' ')`: every whitespace run becomes one space.
The flag records whether the previous character was part of a run. -/
def collapseWsAux : Bool → List Char → List Char
  | _, [] => []
  | prevSp, c :: cs =>
    if isJsSpace c then
      if prevSp then collapseWsAux true cs
      else ' ' :: collapseWsAux true cs
    else c :: collapseWsAux false cs

def collapseWs (l : List Char) : List Char := collapseWsAux false l

/-- JS `String(text).toLowerCase()` as a character list. -/
def lowerData (s : String) : List Char := s.data.map jsLowerChar

/-- JS `String(text).toLowerCase()` as a string. -/
def jsLowerStr (s : String) : String := String.mk (lowerData s)

/-- If `pat` is a prefix of `l`, the remainder of `l` after it. -/
def listStrip : List Char → List Char → Option (List Char)
  | [], l => some l
  | _ :: _, [] => none
  | p :: ps, c :: cs => if p == c then listStrip ps cs else none

/-- Regex `.test` for a literal pattern with a context condition on the
character before the match (`none` = start of string) and on the list after
the match (`[]` = end of string): scans every position left to right. -/
def scanPat (pat : List Char) (before : Option Char → Bool) (after : List Char → Bool) :
    Option Char → List Char → Bool
  | _, [] => false
  | prev, c :: cs =>
    (match listStrip pat (c :: cs) with
     | some rest => before prev && after rest
     | none => false)
    || scanPat pat before after (some c) cs

def anyPrev : Option Char → Bool := fun _ => true

def anyAfter : List Char → Bool := fun _ => true

/-- Plain substring test (no boundary conditions). -/
def containsSub (pat l : List Char) : Bool := scanPat pat anyPrev anyAfter none l

/-- Left word boundary `\b` before a word character: start of string or a
non-word character. -/
def boundaryBefore : Option Char → Bool
  | none => true
  | some c => !(isWordChar c)

/-- Right word boundary `\b` after a word character: end of string or a
non-word character. -/
def boundaryAfterList : List Char → Bool
  | [] => true
  | c :: _ => !(isWordChar c)

/-- Context `(^|\D)` of `/(^|\D)m\b/`: start of string or a non-digit. -/
def nonDigitBefore : Option Char → Bool
  | none => true
  | some c => !(c.isDigit)

/-- Test `/mg\b/` (no boundary required before the `m`). -/
def testMg (l : List Char) : Bool := scanPat "mg".data anyPrev boundaryAfterList none l

/-- Test `/\bg\b/`. -/
def testG (l : List Char) : Bool := scanPat "g".data boundaryBefore boundaryAfterList none l

/-- Test `/\bkg\b/`. -/
def testKg (l : List Char) : Bool := scanPat "kg".data boundaryBefore boundaryAfterList none l

/-- Test `/\bt\b/`. -/
def testT (l : List Char) : Bool := scanPat "t".data boundaryBefore boundaryAfterList none l

/-- Test `/cm\b/` (no boundary required before the `c`). -/
def testCm (l : List Char) : Bool := scanPat "cm".data anyPrev boundaryAfterList none l

/-- Test `/(^|\D)m\b/`. -/
def testDM (l : List Char) : Bool := scanPat "m".data nonDigitBefore boundaryAfterList none l

/-- Replacement `s.replace(/pat\b/g, '')`: remove every occurrence of `pat` that is
followed by a word boundary, scanning left to right and continuing after
each removed match. Fuel = list length (each step consumes at least one
character, so this is exact). -/
def removeTokAux (pat : List Char) : Nat → List Char → List Char
  | 0, l => l
  | _ + 1, [] => []
  | fuel + 1, c :: cs =>
    match listStrip pat (c :: cs) with
    | some rest =>
      if boundaryAfterList rest then removeTokAux pat fuel rest
      else c :: removeTokAux pat fuel cs
    | none => c :: removeTokAux pat fuel cs

def removeTok (pat : List Char) (l : List Char) : List Char := removeTokAux pat l.length l

/-- Decimal digit run to a natural number. -/
def digitsToNat (l : List Char) : Nat := l.foldl (fun n c => n * 10 + (c.toNat - 48)) 0

/-- Exact value of an unsigned decimal token `\d+(\.\d+)?`. -/
def parseUnsignedDec (t : List Char) : ℚ :=
  let ip := t.takeWhile Char.isDigit
  let rest := t.dropWhile Char.isDigit
  let fp := match rest with | '.' :: f => f | _ => []
  (digitsToNat ip : ℚ) + (digitsToNat fp : ℚ) / ((10 : ℚ) ^ fp.length)

/-- Exact value of a `-?\d+(\.\d+)?` token (JS `parseFloat` of the match,
modelled exactly over ℚ). -/
def parseDecimal (tok : List Char) : ℚ :=
  match tok with
  | '-' :: t => -(parseUnsignedDec t)
  | t => parseUnsignedDec t

/-- Greedy match of `\d+(?:\.\d+)?` at the head of the list: the matched
token and the rest. -/
def matchUnsigned (l : List Char) : Option (List Char × List Char) :=
  let d := l.takeWhile Char.isDigit
  let r := l.dropWhile Char.isDigit
  if d.isEmpty then none
  else
    match r with
    | '.' :: cs2 =>
      let d2 := cs2.takeWhile Char.isDigit
      let r2 := cs2.dropWhile Char.isDigit
      if d2.isEmpty then some (d, r)
      else some (d ++ '.' :: d2, r2)
    | _ => some (d, r)

/-- Greedy match of `-?\d+(?:\.\d+)?` at the head of the list (a `-` is
consumed only when digits follow, as in the JS regex). -/
def matchNumAt (l : List Char) : Option (List Char × List Char) :=
  match l with
  | '-' :: cs =>
    match matchUnsigned cs with
    | some (tok, rest) => some ('-' :: tok, rest)
    | none => none
  | _ => matchUnsigned l

/-- First (leftmost) match of `-?\d+(?:\.\d+)?` in the list. -/
def firstNumToken : List Char → Option (List Char)
  | [] => none
  | c :: cs =>
    match matchNumAt (c :: cs) with
    | some (tok, _) => some tok
    | none => firstNumToken cs

/-- All matches of `-?\d+(?:\.\d+)?` (global), left to right, non-overlapping.
Fuel = list length (each step consumes at least one character). -/
def allNumTokensAux : Nat → List Char → List (List Char)
  | 0, _ => []
  | _ + 1, [] => []
  | fuel + 1, c :: cs =>
    match matchNumAt (c :: cs) with
    | some (tok, rest) => tok :: allNumTokensAux fuel rest
    | none => allNumTokensAux fuel cs

def allNumTokens (l : List Char) : List (List Char) := allNumTokensAux l.length l

/-- JS `Math.round` on the exact rational model. -/
def jsRound (q : ℚ) : ℤ := ⌊q + 1 / 2⌋

/-- utils.js `cleanNumberString` (on the character list of a non-null input):
`replace(/\s+/g, '')` then `replace(',', '.')` (first comma only). -/
def cleanNumberString (l : List Char) : List Char :=
  replaceFirstComma (l.filter fun c => !(isJsSpace c))

/-- utils.js `toNumber`: null/empty give null, else the first
`-?\d+(?:\.\d+)?` token of the cleaned string, parsed. -/
def toNumber (val : Option String) : Option ℚ :=
  match val with
  | none => none
  | some s =>
    if s = "" then none
    else
      match firstNumToken (cleanNumberString s.data) with
      | none => none
      | some tok => some (parseDecimal tok)

/-- Result shape of utils.js `parseWeight`. -/
structure WeightVal where
  value : Option ℚ
  unit : String
deriving DecidableEq, Repr

/-- Preprocessing inside utils.js `parseWeight`:
`String(value).toLowerCase().replace(',', '.').trim()`. -/
def weightPre (value : String) : List Char :=
  jsTrim (replaceFirstComma (value.data.map jsLowerChar))

/-- utils.js `parseWeight` (lines 23-34): a falsy input gives
`{value: null, unit: ''}`; otherwise the first numeric token of the
preprocessed string, and the unit found by testing, in order,
`/mg\b/`, `/\bg\b/` (without `/\bkg\b/`), `/\bkg\b/`, `/\bt\b/`. -/
def parseWeight (value : String) : WeightVal :=
  if value = "" then ⟨none, ""⟩
  else
    ⟨(firstNumToken (weightPre value)).map parseDecimal,
      if testMg (weightPre value) then "mg"
      else if testG (weightPre value) && !(testKg (weightPre value)) then "g"
      else if testKg (weightPre value) then "kg"
      else if testT (weightPre value) then "t"
      else ""⟩

/-- utils.js `weightToKg` (lines 37-45): null stays null; otherwise the
value is scaled by the factor of the lower-cased unit, any unrecognized
unit falling through to the identity. -/
def weightToKg (value : Option ℚ) (unit : String) : Option ℚ :=
  match value with
  | none => none
  | some v =>
    if jsLowerStr unit = "mg" then some (v / 1000000)
    else if jsLowerStr unit = "g" then some (v / 1000)
    else if jsLowerStr unit = "kg" ∨ jsLowerStr unit = "" then some v
    else if jsLowerStr unit = "t" then some (v * 1000)
    else some v

/-- Result shape of utils.js `parseDimensionsToLBH`. -/
structure Dims where
  L : Option ℤ
  B : Option ℤ
  H : Option ℤ
deriving DecidableEq, Repr

/-- Character class `[×xX*\/]` of the separator normalization. -/
def sepChar (c : Char) : Bool :=
  c == '×' || c == 'x' || c == 'X' || c == '*' || c == '/'

/-- Preprocessing of utils.js `parseDimensionsToLBH` (lines 56-63):
trim, lower-case, `[,;]` to `.`, strip all whitespace, separators to `x`. -/
def dimPreprocess (text : String) : List Char :=
  (((jsTrim text.data).map jsLowerChar).map (fun c => if c = ',' ∨ c = ';' then '.' else c)
      |>.filter (fun c => !(isJsSpace c))).map fun c => if sepChar c then 'x' else c

/-- Unit detection and stripping of utils.js `parseDimensionsToLBH`
(lines 65-66): `if (/cm\b/.test(s)) { scale = 10; s = s.replace(/cm\b/g, ''); }`
then `if (/(^|\D)m\b/.test(s)) { scale = 1000; s = s.replace(/m\b/g, ''); }`. -/
def dimUnitStrip (s : List Char) : ℚ × List Char :=
  let q := if testCm s then ((10 : ℚ), removeTok "cm".data s) else (1, s)
  if testDM q.2 then (1000, removeTok "m".data q.2) else q

/-- Scale factor and extracted numeric tokens of utils.js
`parseDimensionsToLBH` (steps 1-2 of the algorithm; a falsy input
short-circuits to no tokens). -/
def dimNums (text : String) : ℚ × List ℚ :=
  if text = "" then (1, [])
  else
    ((dimUnitStrip (dimPreprocess text)).1,
     (allNumTokens (dimUnitStrip (dimPreprocess text)).2).map parseDecimal)

/-- utils.js `parseDimensionsToLBH` (lines 54-91): two tokens are a
cylinder (diameter, height), three tokens a cuboid (length, width, height),
anything else yields all-null; each token is scaled then rounded. -/
def parseDimensionsToLBH (text : String) : Dims :=
  match (dimNums text).2 with
  | [a, b] =>
    ⟨none, some (jsRound (a * (dimNums text).1)), some (jsRound (b * (dimNums text).1))⟩
  | [a, b, c] =>
    ⟨some (jsRound (a * (dimNums text).1)), some (jsRound (b * (dimNums text).1)),
     some (jsRound (c * (dimNums text).1))⟩
  | _ => ⟨none, none, none⟩

/-- Character class `[\s\-\/_]` removed by utils.js `normPartNo`. -/
def isPartSep (c : Char) : Bool :=
  isJsSpace c || c == '-' || c == '/' || c == '_'

/-- utils.js `normPartNo` (lines 97-100): falsy gives `''`; otherwise
upper-case, then remove every whitespace run, hyphen, slash, underscore. -/
def normPartNo (s : String) : String :=
  if s = "" then ""
  else String.mk ((s.data.flatMap jsUpperChar).filter fun c => !(isPartSep c))

/-- utils.js `normalizeNCode` (lines 157-160): falsy gives `''`; otherwise
remove every whitespace run, then upper-case. -/
def normalizeNCode (s : String) : String :=
  if s = "" then ""
  else String.mk ((s.data.filter fun c => !(isJsSpace c)).flatMap jsUpperChar)

/-- utils.js `mapMaterialClassificationToExcel` (lines 138-151): the fixed
code iff the lower-cased text contains a negation marker, at least one
process marker and a relevance marker. -/
def mapMaterialClassificationToExcel (text : String) : String :=
  if text = "" then ""
  else
    let hasNicht := containsSub "nicht".data (lowerData text)
    let hasSchweiss := containsSub "schwei".data (lowerData text)
      || containsSub "schweiß".data (lowerData text)
      || containsSub "schweiss".data (lowerData text)
    let hasGuss := containsSub "guss".data (lowerData text)
    let hasKlebe := containsSub "klebe".data (lowerData text)
    let hasSchmiede := containsSub "schmiede".data (lowerData text)
    let hasRelevant := containsSub "relev".data (lowerData text)
    if hasNicht && (hasSchweiss || hasGuss || hasKlebe || hasSchmiede) && hasRelevant
    then "OHNE/N/N/N/N" else ""

/-- server.js `eqText` (lines 134-139): null on either side is false;
otherwise trim, lower-case and collapse internal whitespace, then compare. -/
def eqText (a b : Option String) : Bool :=
  match a, b with
  | some a, some b =>
    collapseWs ((jsTrim a.data).map jsLowerChar) == collapseWs ((jsTrim b.data).map jsLowerChar)
  | _, _ => false

/-- server.js `eqPart` (line 140): compare canonical part numbers. -/
def eqPart (a b : String) : Bool := normPartNo a == normPartNo b

/-- server.js `eqN` (line 141): compare normalized N-codes. -/
def eqN (a b : String) : Bool := normalizeNCode a == normalizeNCode b

/-- server.js `eqWeight` of the first process-excel variant (lines 142-147):
raw number of the DB cell against the parsed Web number, no unit
conversion, tolerance `1e-9`. -/
def eqWeightSimple (exS : Option String) (webVal : String) : Bool :=
  match (parseWeight webVal).value with
  | none => false
  | some wv =>
    match toNumber exS with
    | none => false
    | some exNum => decide (|exNum - wv| < 1 / 1000000000)

/-- server.js `eqDimension` (lines 148-154): DB cell through `toNumber`,
Web text through `parseDimensionsToLBH`, selecting the axis. -/
def eqDimension (exVal : Option String) (webDimText : String) (dimType : Char) : Bool :=
  match toNumber exVal with
  | none => false
  | some exNum =>
    match (if dimType == 'L' then (parseDimensionsToLBH webDimText).L
           else if dimType == 'B' then (parseDimensionsToLBH webDimText).B
           else (parseDimensionsToLBH webDimText).H) with
    | none => false
    | some w => exNum == (w : ℚ)

/-- DB-side unit preparation of server.js `eqWeight` (line 480):
`(exT || '').toString().trim().toLowerCase()`. -/
def dbUnit (exT : Option String) : String :=
  String.mk ((jsTrim (exT.getD "").data).map jsLowerChar)

/-- JS `a || b` on strings: the empty string is falsy. -/
def jsOrS (a b : String) : String := if a = "" then b else a

/-- server.js `eqWeight` of the second process-excel variant (lines
476-487): both sides converted to kilograms (the Web side in its detected
unit, falling back to the DB unit and then to kg; the DB side in the DB
unit column, empty meaning kg), equal iff the absolute difference is
below `1e-9`. -/
def eqWeight (exS exT : Option String) (webVal : String) : Bool :=
  match (parseWeight webVal).value with
  | none => false
  | some wv =>
    match toNumber exS with
    | none => false
    | some exNum =>
      match weightToKg (some exNum) (dbUnit exT),
            weightToKg (some wv) (jsOrS (parseWeight webVal).unit (jsOrS (dbUnit exT) "kg")) with
      | some x, some y => decide (|x - y| < 1 / 1000000000)
      | _, _ => false

/-- server.js `hasValue` (line 133). -/
def hasValue (v : Option String) : Bool :=
  match v with
  | none => false
  | some s => !(s == "") && !((jsTrim s.data).isEmpty)

/-- JS truthiness-plus-sentinel test `web.X && web.X !== 'Nicht gefunden'`
used for every field of the Web attribute bag. -/
def bagPresent (v : Option String) : Bool :=
  match v with
  | none => false
  | some s => !(s == "") && !(s == "Nicht gefunden")

/-- JS `dbValue || fallback` where the cell value may be null or empty. -/
def jsOrOpt (a : Option String) (b : String) : String :=
  match a with
  | none => b
  | some s => if s = "" then b else s

/-- Web attribute bag (scraper result): `none` = key absent; the scraper's
"not found" sentinel is the stored string "Nicht gefunden". -/
structure WebBag where
  produkttitel : Option String
  weitereArtikelnummer : Option String
  materialklassifizierung : Option String
  werkstoff : Option String
  gewicht : Option String
  abmessung : Option String
deriving DecidableEq, Repr

/-- The eight tracked DB/Web column pairs of the first process-excel
handler (`pair.original` of `DB_WEB_PAIRS`). -/
inductive FieldTag where
  | C | E | N | P | S | U | V | W
deriving DecidableEq, Repr

/-- Value written into a Web cell: a string or a number. -/
inductive CellOut where
  | str (s : String)
  | num (q : ℚ)
deriving DecidableEq, Repr

/-- Fill colors of the verdict rendering: green = Match, red = Mismatch,
orange = Missing. -/
inductive FillColor where
  | green | red | orange
deriving DecidableEq, Repr

/-- Outcome of one (record, field) pair: the Web value written (if any)
and the fill color applied to the Web cell (if any). -/
structure PairResult where
  webValue : Option CellOut
  color : Option FillColor
deriving DecidableEq, Repr

/-- The `switch (pair.original)` of the first process-excel handler
(server.js lines 312-357): per field, the Web value to write (null when
missing) and the comparison result. -/
def pairCompute : FieldTag → Option String → WebBag → String → Option CellOut × Bool
  | .C, dbValue, web, _ =>
    if bagPresent web.produkttitel then
      (some (CellOut.str (web.produkttitel.getD "")),
       eqText (some (jsOrOpt dbValue "")) (some (web.produkttitel.getD "")))
    else (none, false)
  | .E, dbValue, web, a2v =>
    if bagPresent web.weitereArtikelnummer then
      (some (CellOut.str (web.weitereArtikelnummer.getD "")),
       eqPart (jsOrOpt dbValue a2v) (web.weitereArtikelnummer.getD ""))
    else
      (some (CellOut.str a2v), eqPart (jsOrOpt dbValue a2v) a2v)
  | .N, dbValue, web, _ =>
    if bagPresent web.materialklassifizierung then
      if normalizeNCode (mapMaterialClassificationToExcel (web.materialklassifizierung.getD "")) ≠ ""
      then
        (some (CellOut.str (normalizeNCode
            (mapMaterialClassificationToExcel (web.materialklassifizierung.getD "")))),
         eqN (jsOrOpt dbValue "") (normalizeNCode
            (mapMaterialClassificationToExcel (web.materialklassifizierung.getD ""))))
      else (none, false)
    else (none, false)
  | .P, dbValue, web, _ =>
    if bagPresent web.werkstoff then
      (some (CellOut.str (web.werkstoff.getD "")),
       eqText (some (jsOrOpt dbValue "")) (some (web.werkstoff.getD "")))
    else (none, false)
  | .S, dbValue, web, _ =>
    if bagPresent web.gewicht then
      match (parseWeight (web.gewicht.getD "")).value with
      | some v => (some (CellOut.num v), eqWeightSimple dbValue (web.gewicht.getD ""))
      | none => (none, false)
    else (none, false)
  | .U, dbValue, web, _ =>
    if bagPresent web.abmessung then
      match (parseDimensionsToLBH (web.abmessung.getD "")).L with
      | some dv => (some (CellOut.num (dv : ℚ)), eqDimension dbValue (web.abmessung.getD "") 'L')
      | none => (none, false)
    else (none, false)
  | .V, dbValue, web, _ =>
    if bagPresent web.abmessung then
      match (parseDimensionsToLBH (web.abmessung.getD "")).B with
      | some dv => (some (CellOut.num (dv : ℚ)), eqDimension dbValue (web.abmessung.getD "") 'B')
      | none => (none, false)
    else (none, false)
  | .W, dbValue, web, _ =>
    if bagPresent web.abmessung then
      match (parseDimensionsToLBH (web.abmessung.getD "")).H with
      | some dv => (some (CellOut.num (dv : ℚ)), eqDimension dbValue (web.abmessung.getD "") 'H')
      | none => (none, false)
    else (none, false)

/-- Verdict fill of the first process-excel handler (server.js lines
359-367): a present Web value is written and colored green/red when the DB
cell has a value, orange when it has none; with no Web value the cell is
left empty and colored orange only when the DB cell has a value. -/
def pairVerdict (tag : FieldTag) (dbValue : Option String) (web : WebBag) (a2v : String) :
    PairResult :=
  match (pairCompute tag dbValue web a2v).1 with
  | some w =>
    ⟨some w,
     some (if hasValue dbValue then
             (if (pairCompute tag dbValue web a2v).2 then FillColor.green else FillColor.red)
           else FillColor.orange)⟩
  | none => ⟨none, if hasValue dbValue then some FillColor.orange else none⟩

/-- Bag entry consulted by `pairCompute` for each tracked field. -/
def bagFieldOf : FieldTag → WebBag → Option String
  | .C, web => web.produkttitel
  | .E, web => web.weitereArtikelnummer
  | .N, web => web.materialklassifizierung
  | .P, web => web.werkstoff
  | .S, web => web.gewicht
  | .U, web => web.abmessung
  | .V, web => web.abmessung
  | .W, web => web.abmessung

/-- A valid scalar value round-trips through `Char.ofNat`. -/
theorem charOfNat_toNat {n : Nat} (h : n.isValidChar) : (Char.ofNat n).toNat = n := by
  simp only [Char.ofNat, dif_pos h]
  rfl

/-- Scalar value of `Char.toUpper`. -/
theorem toUpper_toNat (c : Char) :
    (c.toUpper).toNat = if c.toNat ≥ 97 ∧ c.toNat ≤ 122 then c.toNat - 32 else c.toNat := by
  have e : c.toUpper = if c.toNat ≥ 97 ∧ c.toNat ≤ 122 then Char.ofNat (c.toNat - 32) else c := rfl
  rw [e]
  split_ifs with h
  · apply charOfNat_toNat
    exact Or.inl (by omega)
  · rfl

/-- Characters outside the lowercase ASCII range are fixed by `toUpper`. -/
theorem toUpper_id_of (c : Char) (h : ¬(c.toNat ≥ 97 ∧ c.toNat ≤ 122)) : c.toUpper = c := by
  have e : c.toUpper = if c.toNat ≥ 97 ∧ c.toNat ≤ 122 then Char.ofNat (c.toNat - 32) else c := rfl
  rw [e, if_neg h]

/-- `Char.toUpper` is idempotent. -/
theorem toUpper_stable (c : Char) : c.toUpper.toUpper = c.toUpper := by
  apply toUpper_id_of
  rw [toUpper_toNat]
  split_ifs with h <;> omega

/-- Distinct scalar values give distinct characters. -/
theorem charNe_of_toNat {a b : Char} (h : a.toNat ≠ b.toNat) : a ≠ b :=
  fun e => h (congrArg Char.toNat e)

/-- Every character produced by `jsUpperChar` is fixed by it. -/
theorem jsUpperChar_stable {c d : Char} (h : d ∈ jsUpperChar c) : jsUpperChar d = [d] := by
  unfold jsUpperChar at h
  split_ifs at h with h1 h2 h3 h4
  · have hd : d = 'S' := by simpa using h
    subst hd; decide
  · have hd : d = 'Ä' := by simpa using h
    subst hd; decide
  · have hd : d = 'Ö' := by simpa using h
    subst hd; decide
  · have hd : d = 'Ü' := by simpa using h
    subst hd; decide
  · have hd : d = c.toUpper := by simpa using h
    subst hd
    by_cases hl : c.toNat ≥ 97 ∧ c.toNat ≤ 122
    · have ht : c.toUpper.toNat = c.toNat - 32 := by rw [toUpper_toNat, if_pos hl]
      have n1 : c.toUpper ≠ 'ß' := charNe_of_toNat (by rw [ht]; show c.toNat - 32 ≠ 223; omega)
      have n2 : c.toUpper ≠ 'ä' := charNe_of_toNat (by rw [ht]; show c.toNat - 32 ≠ 228; omega)
      have n3 : c.toUpper ≠ 'ö' := charNe_of_toNat (by rw [ht]; show c.toNat - 32 ≠ 246; omega)
      have n4 : c.toUpper ≠ 'ü' := charNe_of_toNat (by rw [ht]; show c.toNat - 32 ≠ 252; omega)
      unfold jsUpperChar
      rw [if_neg n1, if_neg n2, if_neg n3, if_neg n4, toUpper_stable]
    · have he : c.toUpper = c := toUpper_id_of c hl
      rw [he]
      unfold jsUpperChar
      rw [if_neg h1, if_neg h2, if_neg h3, if_neg h4, he]

/-- A `flatMap` whose function is the singleton on every member is the
identity. -/
theorem flatMap_id_on (l : List Char) (h : ∀ c ∈ l, jsUpperChar c = [c]) :
    l.flatMap jsUpperChar = l := by
  induction l with
  | nil => rfl
  | cons a t ih =>
    rw [List.flatMap_cons, h a (List.mem_cons_self a t),
      ih fun c hc => h c (List.mem_cons_of_mem a hc)]
    rfl

/-- C8: normalizePartNumber is idempotent: for every string x,
normPartNo (normPartNo x) = normPartNo x, where normPartNo upper-cases and
removes every whitespace run, hyphen, underscore, and slash. -/
theorem normPartNo_idempotent (x : String) : normPartNo (normPartNo x) = normPartNo x := by
  by_cases hx : x = ""
  · subst hx; rfl
  · have hxv : normPartNo x
        = String.mk ((x.data.flatMap jsUpperChar).filter fun c => !(isPartSep c)) := by
      unfold normPartNo
      rw [if_neg hx]
    rw [hxv]
    by_cases h0 : String.mk ((x.data.flatMap jsUpperChar).filter fun c => !(isPartSep c)) = ""
    · rw [h0]
      rfl
    · unfold normPartNo
      rw [if_neg h0]
      congr 1
      have hstab : ∀ c ∈ (x.data.flatMap jsUpperChar).filter fun c => !(isPartSep c),
          jsUpperChar c = [c] := by
        intro c hc
        obtain ⟨a, _, hmem⟩ := List.mem_flatMap.mp (List.mem_filter.mp hc).1
        exact jsUpperChar_stable hmem
      rw [show (String.mk ((x.data.flatMap jsUpperChar).filter fun c => !(isPartSep c))).data
            = (x.data.flatMap jsUpperChar).filter fun c => !(isPartSep c) from rfl]
      rw [flatMap_id_on _ hstab]
      exact List.filter_eq_self.mpr fun a ha => (List.mem_filter.mp ha).2

/-- C10: parseWeight's unit detection is asymmetric for units written
directly against the number: "100mg" is detected as mg, while "100kg",
"100g" and "100t" all yield the empty unit, which weightToKg then treats
as kilograms. -/
theorem parseWeight_attached_unit_asymmetry :
    parseWeight "100mg" = ⟨some 100, "mg"⟩
    ∧ parseWeight "100kg" = ⟨some 100, ""⟩
    ∧ parseWeight "100g" = ⟨some 100, ""⟩
    ∧ parseWeight "100t" = ⟨some 100, ""⟩
    ∧ weightToKg (parseWeight "100kg").value (parseWeight "100kg").unit = some 100
    ∧ weightToKg (parseWeight "100g").value (parseWeight "100g").unit = some 100
    ∧ weightToKg (parseWeight "100t").value (parseWeight "100t").unit = some 100 :=
  ⟨by with_unfolding_all decide, by with_unfolding_all decide, by with_unfolding_all decide, by with_unfolding_all decide, by with_unfolding_all decide, by with_unfolding_all decide, by with_unfolding_all decide⟩

/-- C2: evaluation of parseDimensionsToLBH on the unit-suffixed inputs of
the claim. The cm case scales by 10 as claimed, but the digit-guard of the
regex `(^|\D)m\b` makes a bare m suffix keep scale 1 (the digit before the
m defeats the guard once whitespace is stripped) while an mm suffix sets
scale 1000 (the first m of mm is a non-digit before the second m), so the
second and third equations contradict the claimed scale factors. -/
theorem parseDims_unit_scale_eval :
    parseDimensionsToLBH "3x2x1 cm" = ⟨some 30, some 20, some 10⟩
    ∧ parseDimensionsToLBH "1x2x3 m" = ⟨some 1, some 2, some 3⟩
    ∧ parseDimensionsToLBH "30x20x10 mm" = ⟨some 30000, some 20000, some 10000⟩ := by
  refine ⟨?_, ?_, ?_⟩
  · have h : dimNums "3x2x1 cm" = (10, [3, 2, 1]) := by with_unfolding_all decide
    simp only [parseDimensionsToLBH, h]
    congr 1 <;> exact congrArg some (by with_unfolding_all decide)
  · have h : dimNums "1x2x3 m" = (1, [1, 2, 3]) := by with_unfolding_all decide
    simp only [parseDimensionsToLBH, h]
    congr 1 <;> exact congrArg some (by with_unfolding_all decide)
  · have h : dimNums "30x20x10 mm" = (1000, [30, 20, 10]) := by with_unfolding_all decide
    simp only [parseDimensionsToLBH, h]
    congr 1 <;> exact congrArg some (by with_unfolding_all decide)

/-- C9: the normalization functions are total Lean functions over all
inputs (they are defined without partiality and can be evaluated on every
string); malformed, empty and null inputs produce the null / empty-string
sentinels and classification output is always the fixed code or empty. -/
theorem normalizers_total_sentinels :
    toNumber none = none
    ∧ toNumber (some "") = none
    ∧ toNumber (some "abc") = none
    ∧ parseWeight "" = ⟨none, ""⟩
    ∧ (parseWeight "xyz").value = none
    ∧ (∀ u : String, weightToKg none u = none)
    ∧ parseDimensionsToLBH "" = ⟨none, none, none⟩
    ∧ parseDimensionsToLBH "abc" = ⟨none, none, none⟩
    ∧ normPartNo "" = ""
    ∧ normalizeNCode "" = ""
    ∧ mapMaterialClassificationToExcel "" = ""
    ∧ mapMaterialClassificationToExcel "xyz" = ""
    ∧ (∀ s : String, mapMaterialClassificationToExcel s = "OHNE/N/N/N/N"
        ∨ mapMaterialClassificationToExcel s = "") := by
  refine ⟨by with_unfolding_all decide, by with_unfolding_all decide, by with_unfolding_all decide, by with_unfolding_all decide, by with_unfolding_all decide, fun u => rfl,
    by with_unfolding_all decide, by with_unfolding_all decide, by with_unfolding_all decide, by with_unfolding_all decide, by with_unfolding_all decide, by with_unfolding_all decide, fun s => ?_⟩
  unfold mapMaterialClassificationToExcel
  split_ifs <;> simp

/-- C5: parseWeight lower-cases, converts a comma to a decimal point,
returns the leading numeric token as value (null if none), and detects the
unit in priority order mg, then g (without kg), then kg, then t, else the
empty string; and on the claim's examples "0,162 kg" parses to 0.162 kg
and "500 g" to 500 g. -/
theorem parseWeight_parsing_spec :
    (∀ s : String, s ≠ "" →
        parseWeight s = ⟨(firstNumToken (weightPre s)).map parseDecimal,
          if testMg (weightPre s) then "mg"
          else if testG (weightPre s) && !(testKg (weightPre s)) then "g"
          else if testKg (weightPre s) then "kg"
          else if testT (weightPre s) then "t"
          else ""⟩)
    ∧ parseWeight "0,162 kg" = ⟨some (0.162 : ℚ), "kg"⟩
    ∧ parseWeight "500 g" = ⟨some 500, "g"⟩ := by
  refine ⟨fun s h => ?_, by with_unfolding_all decide, by with_unfolding_all decide⟩
  unfold parseWeight
  rw [if_neg h]

/-- C6: weightToKg returns null iff its value is null, scales by the fixed
factor of the recognized unit (mg by 1e-6, g by 1e-3, kg and the empty
unit by 1, t by 1e3), leaves any unrecognized unit unscaled, and satisfies
the claim's examples. -/
theorem weightToKg_conversion_spec :
    (∀ (w : Option ℚ) (u : String), weightToKg w u = none ↔ w = none)
    ∧ (∀ v : ℚ, weightToKg (some v) "mg" = some (v / 1000000))
    ∧ (∀ v : ℚ, weightToKg (some v) "g" = some (v / 1000))
    ∧ (∀ v : ℚ, weightToKg (some v) "kg" = some v ∧ weightToKg (some v) "" = some v)
    ∧ (∀ v : ℚ, weightToKg (some v) "t" = some (v * 1000))
    ∧ (∀ (v : ℚ) (u : String),
        jsLowerStr u ≠ "mg" → jsLowerStr u ≠ "g" → jsLowerStr u ≠ "kg" →
        jsLowerStr u ≠ "" → jsLowerStr u ≠ "t" → weightToKg (some v) u = some v)
    ∧ weightToKg (some 500) "g" = some (0.5 : ℚ)
    ∧ weightToKg (some 162) "mg" = some (0.000162 : ℚ)
    ∧ weightToKg (some 1) "t" = some 1000 := by
  refine ⟨fun w u => ?_, fun v => rfl, fun v => rfl, fun v => ⟨rfl, rfl⟩, fun v => rfl,
    fun v u h1 h2 h3 h4 h5 => ?_,
    by rw [show weightToKg (some 500) "g" = some ((500 : ℚ) / 1000) from rfl]; norm_num,
    by rw [show weightToKg (some 162) "mg" = some ((162 : ℚ) / 1000000) from rfl]; norm_num,
    by rw [show weightToKg (some 1) "t" = some ((1 : ℚ) * 1000) from rfl]; norm_num⟩
  · cases w with
    | none => simp [weightToKg]
    | some v =>
      unfold weightToKg
      split_ifs <;> simp
  · rw [show weightToKg (some v) u
        = (if jsLowerStr u = "mg" then some (v / 1000000)
           else if jsLowerStr u = "g" then some (v / 1000)
           else if jsLowerStr u = "kg" ∨ jsLowerStr u = "" then some v
           else if jsLowerStr u = "t" then some (v * 1000) else some v) from rfl]
    rw [if_neg h1, if_neg h2, if_neg (not_or.mpr ⟨h3, h4⟩), if_neg h5]

/-- C7: mapMaterialClassification returns the fixed code OHNE/N/N/N/N iff
the lower-cased description contains a negation marker, at least one
process marker (welding, casting, bonding, forging) and a relevance
marker, and the empty string otherwise; a description with several process
markers still yields the same single code. -/
theorem materialClassification_mapping_spec :
    (∀ text : String,
        mapMaterialClassificationToExcel text =
          if containsSub "nicht".data (lowerData text)
              && (containsSub "schwei".data (lowerData text)
                  || containsSub "schweiß".data (lowerData text)
                  || containsSub "schweiss".data (lowerData text)
                  || containsSub "guss".data (lowerData text)
                  || containsSub "klebe".data (lowerData text)
                  || containsSub "schmiede".data (lowerData text))
              && containsSub "relev".data (lowerData text)
          then "OHNE/N/N/N/N" else "")
    ∧ mapMaterialClassificationToExcel "Nicht schweißrelevant" = "OHNE/N/N/N/N"
    ∧ mapMaterialClassificationToExcel "Nicht schweiss- und gussrelevant" = "OHNE/N/N/N/N"
    ∧ mapMaterialClassificationToExcel "schweißrelevant" = ""
    ∧ mapMaterialClassificationToExcel "nicht relevant" = ""
    ∧ mapMaterialClassificationToExcel "nicht schweissbar" = "" := by
  refine ⟨fun text => ?_, by decide, by decide, by decide, by decide, by decide⟩
  by_cases h : text = ""
  · subst h; decide
  · unfold mapMaterialClassificationToExcel
    rw [if_neg h]

/-- C4: parseDimensionsToLBH obeys the token-count trichotomy: exactly two
extracted tokens give the cylinder mapping (L null, B and H the rounded
scaled tokens), exactly three give the cuboid mapping in input order, and
any other token count (as for "abc" and "10") gives all three null;
"20x30" maps to L null, B 20, H 30. -/
theorem dimension_token_trichotomy :
    (∀ (text : String) (s a b : ℚ), dimNums text = (s, [a, b]) →
        parseDimensionsToLBH text = ⟨none, some (jsRound (a * s)), some (jsRound (b * s))⟩)
    ∧ (∀ (text : String) (s a b c : ℚ), dimNums text = (s, [a, b, c]) →
        parseDimensionsToLBH text
          = ⟨some (jsRound (a * s)), some (jsRound (b * s)), some (jsRound (c * s))⟩)
    ∧ (∀ text : String, (dimNums text).2.length ≠ 2 → (dimNums text).2.length ≠ 3 →
        parseDimensionsToLBH text = ⟨none, none, none⟩)
    ∧ parseDimensionsToLBH "abc" = ⟨none, none, none⟩
    ∧ parseDimensionsToLBH "10" = ⟨none, none, none⟩
    ∧ parseDimensionsToLBH "20x30" = ⟨none, some 20, some 30⟩ := by
  refine ⟨fun text s a b h => ?_, fun text s a b c h => ?_, fun text h2 h3 => ?_,
    by decide, by decide, ?_⟩
  · simp only [parseDimensionsToLBH, h]
  · simp only [parseDimensionsToLBH, h]
  · rcases hd : dimNums text with ⟨s, ns⟩
    rw [hd] at h2 h3
    have h2n : ns.length ≠ 2 := by simpa using h2
    have h3n : ns.length ≠ 3 := by simpa using h3
    rcases ns with _ | ⟨a1, _ | ⟨b1, _ | ⟨c1, _ | ⟨d1, t2⟩⟩⟩⟩
    · simp [parseDimensionsToLBH, hd]
    · simp [parseDimensionsToLBH, hd]
    · simp at h2n
    · simp at h3n
    · simp [parseDimensionsToLBH, hd]
  · have h : dimNums "20x30" = (1, [20, 30]) := by with_unfolding_all decide
    simp only [parseDimensionsToLBH, h]
    congr 1 <;> exact congrArg some (by with_unfolding_all decide)

/-- C1: the unit-aware weight comparator eqWeight converts both sides to
kilograms (the Web side via parseWeight and weightToKg in its detected
unit, falling back to the DB unit and then to kg; the DB side as a bare
number in the DB unit column, empty meaning kg) and, whenever both sides
parse, returns true iff the absolute difference of the kilogram values is
below 1e-9; in particular DB 1.0 (kg) against Web "900 g" is a mismatch
and DB 0.5 (kg) against Web "500 g" is a match. -/
theorem eqWeight_kilogram_comparison :
    (∀ (exS exT : Option String) (webVal : String) (a b : ℚ),
        weightToKg (toNumber exS) (dbUnit exT) = some a →
        weightToKg (parseWeight webVal).value
            (jsOrS (parseWeight webVal).unit (jsOrS (dbUnit exT) "kg")) = some b →
        (eqWeight exS exT webVal = true ↔ |a - b| < 1 / 1000000000))
    ∧ eqWeight (some "1") none "900 g" = false
    ∧ eqWeight (some "0.5") none "500 g" = true := by
  refine ⟨fun exS exT webVal a b ha hb => ?_,
    by with_unfolding_all decide, by with_unfolding_all decide⟩
  unfold eqWeight
  cases hw : (parseWeight webVal).value with
  | none =>
    rw [hw] at hb
    simp [weightToKg] at hb
  | some wv =>
    cases hx : toNumber exS with
    | none =>
      rw [hx] at ha
      simp [weightToKg] at ha
    | some ex =>
      rw [hw] at hb
      rw [hx] at ha
      simp only [hw, hx, ha, hb, decide_eq_true_eq]

/-- C3 counterexample: for the part-number field E, a Web bag whose
part-number entry is the sentinel "Nicht gefunden" does not produce a
Missing verdict: the handler substitutes the record's A2V identifier as
the Web value and compares it against the DB value, here writing the
identifier and coloring the cell red (Mismatch). -/
theorem partNumber_sentinel_not_missing :
    pairVerdict FieldTag.E (some "X1")
        (WebBag.mk none (some "Nicht gefunden") none none none none) "A2V00001"
      = PairResult.mk (some (CellOut.str "A2V00001")) (some FillColor.red) := by
  with_unfolding_all decide

/-- C3 amended: for every tracked field other than the part-number field E,
a Web bag entry that is absent, empty or the sentinel "Nicht gefunden"
yields no written Web value and no comparison; the cell is colored orange
(Missing) exactly when the DB cell has a value, and left uncolored when
the DB cell is empty too. For the part-number field E the handler instead
substitutes the record's A2V identifier as the Web value and always writes
it: the cell is colored by the comparison (green Match / red Mismatch)
when the DB cell has a value, and orange when the DB cell is empty. -/
theorem missing_web_value_verdict :
    (∀ (tag : FieldTag) (dbValue : Option String) (web : WebBag) (a2v : String),
        tag ≠ FieldTag.E →
        bagPresent (bagFieldOf tag web) = false →
        (pairVerdict tag dbValue web a2v).webValue = none
        ∧ (pairVerdict tag dbValue web a2v).color
            = (if hasValue dbValue then some FillColor.orange else none))
    ∧ (∀ (dbValue : Option String) (web : WebBag) (a2v : String),
        bagPresent web.weitereArtikelnummer = false →
        pairVerdict FieldTag.E dbValue web a2v
          = ⟨some (CellOut.str a2v),
             some (if hasValue dbValue then
                     (if eqPart (jsOrOpt dbValue a2v) a2v then FillColor.green
                      else FillColor.red)
                   else FillColor.orange)⟩) := by
  constructor
  · intro tag dbValue web a2v hne hmiss
    cases tag
    all_goals first
      | exact absurd rfl hne
      | (simp only [bagFieldOf] at hmiss
         simp [pairVerdict, pairCompute, hmiss])
  · intro dbValue web a2v hmiss
    simp [pairVerdict, pairCompute, hmiss]

/-- C3 amended, witness: with a sentinel Web bag entry, the weight field
with a non-empty DB cell yields no Web value and the orange (Missing)
fill, while the part-number field with an empty DB cell gets the A2V
identifier written and the orange fill. -/
theorem missing_web_value_verdict_witness :
    ((pairVerdict FieldTag.S (some "1.0")
        (WebBag.mk none none none none (some "Nicht gefunden") none) "A2V1").webValue = none
      ∧ (pairVerdict FieldTag.S (some "1.0")
          (WebBag.mk none none none none (some "Nicht gefunden") none) "A2V1").color
          = (if hasValue (some "1.0") then some FillColor.orange else none))
    ∧ pairVerdict FieldTag.E none
        (WebBag.mk none (some "Nicht gefunden") none none none none) "A2V00001"
        = ⟨some (CellOut.str "A2V00001"),
           some (if hasValue none then
                   (if eqPart (jsOrOpt none "A2V00001") "A2V00001" then FillColor.green
                    else FillColor.red)
                 else FillColor.orange)⟩ :=
  ⟨missing_web_value_verdict.1 FieldTag.S (some "1.0")
      (WebBag.mk none none none none (some "Nicht gefunden") none) "A2V1"
      (by decide) (by decide),
   missing_web_value_verdict.2 none
      (WebBag.mk none (some "Nicht gefunden") none none none none) "A2V00001"
      (by decide)⟩
